import Mathlib

/-!
Shallow embedding of the transformer fusion code of this repository:
`fusion_gemmfastgelu.py` (class `FusionGemmFastGelu`) and `fusion_utils.py`
(class `FusionUtils`).  The external collaborators (the graph model
`OnnxModel`, the shape-inference helper, `onnx.helper`) are not part of the
given sources; their behaviour is modelled from the specification and each
such definition is marked `Modelled from the spec`.
-/

/-- Python runtime errors that the embedded code can raise. -/
inductive PyErr where
  | typeError
  | valueError
  | indexError
  | keyError
deriving DecidableEq, Repr

/-- Python list indexing `xs[i]` for a non-negative index; raises IndexError when out of range. -/
def pyIdx {α : Type} (xs : List α) (i : Nat) : Except PyErr α :=
  match xs.get? i with
  | Option.some x => Except.ok x
  | Option.none => Except.error PyErr.indexError

/-- Python list indexing `xs[i]` for a possibly negative index (a negative index counts from the end). -/
def pyIdxI {α : Type} (xs : List α) (i : Int) : Except PyErr α :=
  let j : Int := if i < 0 then i + xs.length else i
  if j < 0 then Except.error PyErr.indexError
  else pyIdx xs j.toNat

/-- A constant tensor: `dims` is the shape (the `numpy` array shape after `NumpyHelper.to_array`), `data` its raw elements. -/
structure Tensor where
  dims : List Nat
  data : List Int
deriving DecidableEq, Repr

/-- A scalar Python value: `None`, a number (Python `int` and `float` compare numerically, so both are rationals here), the float `nan`, or a string. -/
inductive PScalar where
  | none
  | num (q : Rat)
  | nan
  | str (s : String)
deriving DecidableEq, Repr

/-- A Python attribute value as returned by `helper.get_attribute_value`: a scalar or a flat list (ONNX `INTS`/`FLOATS`/`STRINGS` attributes decode to flat lists; nested lists do not arise). -/
inductive PVal where
  | scalar (s : PScalar)
  | list (xs : List PScalar)
deriving DecidableEq, Repr

/-- A node attribute (`onnx.AttributeProto`), with its value already decoded. -/
structure Attr where
  name : String
  value : PVal
deriving DecidableEq, Repr

/-- An operator node (`onnx.NodeProto`); `attrs` stands for the `attribute` field of the protobuf, whose name is reserved in Lean. -/
structure Node where
  op_type : String
  input : List String
  output : List String
  name : String
  domain : String
  attrs : List Attr
deriving DecidableEq, Repr

/-- Modelled from the spec: the result of the external shape/type inference oracle.  `knownVi` backs `known_vi_`: a tensor name maps to its value info, whose inner option is whether `elem_type` is set (`HasField`).  `edgeShapes` backs `get_edge_shape`. -/
structure InferResult where
  knownVi : List (String × Option Nat)
  edgeShapes : List (String × List Nat)
deriving DecidableEq, Repr

/-- Modelled from the spec: the externally owned graph model (`OnnxModel`): the node sequence, constant tensors (backing `get_initializer` and `get_constant_value`), graph input and output names, declared tensor types (backing `OnnxModel.get_dtype`), the inference oracle result (`infer_runtime_shape`; `Option.none` when inference is unavailable), and the current graph name. -/
structure Model where
  nodes : List Node
  initTensors : List (String × Tensor)
  constants : List (String × Tensor)
  graphInputs : List String
  graphOutputs : List String
  modelDtypes : List (String × Nat)
  inferResult : Option InferResult
  thisGraphName : String
deriving DecidableEq, Repr

/-- First-match lookup in an association list (a Python `dict` access that yields `None` when the key is absent). -/
def lookupS {α : Type} (xs : List (String × α)) (k : String) : Option α :=
  match xs.find? (fun kv => kv.1 == k) with
  | Option.some kv => Option.some kv.2
  | Option.none => Option.none

/-- Modelled from the spec: `get_initializer` resolves a tensor name to its graph-level constant tensor, `Option.none` when the name is not an initializer. -/
def getInitTensor (m : Model) (tname : String) : Option Tensor :=
  lookupS m.initTensors tname

/-- Modelled from the spec: `get_constant_value` (`resolve_constant`) resolves a tensor name to its compile-time constant value, `Option.none` when it is not constant. -/
def getConstantValue (m : Model) (tname : String) : Option Tensor :=
  lookupS m.constants tname

/-- Modelled from the spec: producer lookup — the node of the sequence that produces the named tensor. -/
def getProducerOf (ns : List Node) (tname : String) : Option Node :=
  ns.find? (fun p => p.output.contains tname)

/-- Modelled from the spec: `get_parent(node, i)` — the producer of the node's input at index `i`, `Option.none` when that input is missing or has no producer. -/
def getParentIn (ns : List Node) (n : Node) (i : Nat) : Option Node :=
  match n.input.get? i with
  | Option.some s => getProducerOf ns s
  | Option.none => Option.none

/-- Modelled from the spec: the Pattern Matcher walk of `match_parent_path`: at each step inspect the producer of the current node's input at the given index and fail (no-match, `None` in the source) if there is no producer or its operator type differs. -/
def matchParentGo (m : Model) : Node → List (String × Nat) → Option (List Node)
  | _, [] => Option.some []
  | n, (op, idx) :: rest =>
    match n.input.get? idx with
    | Option.none => Option.none
    | Option.some s =>
      match getProducerOf m.nodes s with
      | Option.none => Option.none
      | Option.some p =>
        if p.op_type == op then
          match matchParentGo m p rest with
          | Option.some ps => Option.some (p :: ps)
          | Option.none => Option.none
        else Option.none

/-- Modelled from the spec: `match_parent_path(node, ops, idxs)` returns the ordered matched producers, or no-match. -/
def matchParentPath (m : Model) (n : Node) (ops : List String) (idxs : List Nat) : Option (List Node) :=
  matchParentGo m n (ops.zip idxs)

/-- Modelled from the spec: the Safety Checker `is_safe_to_fuse_nodes`: a candidate set may be removed iff every tensor produced by it, other than the surviving outputs, is not a graph output and is consumed only by nodes of the candidate set. -/
def isSafeToFuseNodes (m : Model) (candidates : List Node) (survivors : List String) : Bool :=
  candidates.all (fun n => n.output.all (fun t =>
    survivors.contains t ||
    (!(m.graphOutputs.contains t) &&
      (m.nodes.filter (fun c => c.input.contains t)).all (fun c => candidates.contains c))))

/-- Helper for `createNodeName`: try suffixes until one is unused (the fuel bound suffices since there are more candidates than taken names). -/
def freshNameGo (used : List String) (p : String) : Nat → Nat → String
  | 0, i => p ++ "_" ++ toString i
  | Nat.succ fuel, i =>
    let cand := p ++ "_" ++ toString i
    if used.contains cand then freshNameGo used p fuel (i + 1) else cand

/-- Modelled from the spec: `create_node_name` generates a fresh node name from the operator-type stem, unique within the graph. -/
def createNodeName (m : Model) (p : String) : String :=
  freshNameGo (m.nodes.map (fun n => n.name)) p (m.nodes.length + 1) 0

/-- The per-node effect of `replace_input_of_all_nodes`: rewires this node's inputs named `oldName` to `newName`. -/
def renameInputs (oldName newName : String) (n : Node) : Node :=
  { n with input := n.input.map (fun s => if s == oldName then newName else s) }

/-- The per-node effect of `replace_output_of_all_nodes`: renames this node's outputs named `oldName` to `newName`. -/
def renameOutputs (oldName newName : String) (n : Node) : Node :=
  { n with output := n.output.map (fun s => if s == oldName then newName else s) }

/-- Modelled from the spec: `replace_input_of_all_nodes(old, new)` rewires every node input named `old` to `new`, mutating the graph's nodes in place. -/
def replaceInputOfAllNodes (m : Model) (oldName newName : String) : Model :=
  { m with nodes := m.nodes.map (renameInputs oldName newName) }

/-- Modelled from the spec: `replace_output_of_all_nodes(old, new)` renames every node output named `old` to `new`, mutating the graph's nodes in place. -/
def replaceOutputOfAllNodes (m : Model) (oldName newName : String) : Model :=
  { m with nodes := m.nodes.map (renameOutputs oldName newName) }

/-- Modelled from the spec: `remove_node` drops the node from the graph's node sequence. -/
def removeNode (m : Model) (n : Node) : Model :=
  { m with nodes := m.nodes.erase n }

/-- Python dict assignment `d[k] = v`, order preserving. -/
def dictSet (d : List (String × String)) (k v : String) : List (String × String) :=
  if d.any (fun kv => kv.1 == k) then d.map (fun kv => if kv.1 == k then (k, v) else kv)
  else d ++ [(k, v)]

/-- One backward liveness step for `pruneGraph`: tensors feeding a node whose output is already needed become needed. -/
def pruneNeededStep (ns : List Node) (needed : List String) : List String :=
  ns.foldl (fun acc n =>
    if n.output.any (fun t => acc.contains t) then
      acc ++ n.input.filter (fun s => !(acc.contains s))
    else acc) needed

/-- Iterate the liveness step. -/
def pruneNeededIter (ns : List Node) : Nat → List String → List String
  | 0, needed => needed
  | Nat.succ k, needed => pruneNeededIter ns k (pruneNeededStep ns needed)

/-- Modelled from the spec: `prune_graph` (`prune_unreachable`) removes every node with no path to a graph output. -/
def pruneGraph (m : Model) : Model :=
  let needed := pruneNeededIter m.nodes m.nodes.length m.graphOutputs
  { m with nodes := m.nodes.filter (fun n => n.output.any (fun t => needed.contains t)) }

/-- The staged-edit state of a `Fusion` instance: `nodes_to_remove`, `nodes_to_add` and `node_name_to_graph_name`. -/
structure FusionState where
  nodes_to_remove : List Node
  nodes_to_add : List Node
  node_name_to_graph_name : List (String × String)
deriving DecidableEq, Repr

/-- The enumerate-and-break scan of `FusionGemmFastGelu.fuse`: the first input backed by an initializer, with its index. -/
def findConstGo (m : Model) : List String → Nat → Option (Nat × Tensor)
  | [], _ => Option.none
  | s :: rest, i =>
    match getInitTensor m s with
    | Option.some t => Option.some (i, t)
    | Option.none => findConstGo m rest (i + 1)

def findConstOperand (m : Model) (names : List String) : Option (Nat × Tensor) :=
  findConstGo m names 0

/-- The staging tail of `FusionGemmFastGelu.fuse` (fusion_gemmfastgelu.py lines 60-77): safety check, then stage removal of the two nodes and addition of the fused `GemmFastGelu` node. -/
def fuseStage (m : Model) (st : FusionState) (node matmul : Node)
    (weight_index : Nat) (bias_index : Option Nat) : Except PyErr FusionState := do
  let out0 ← pyIdx node.output 0
  if isSafeToFuseNodes m [node, matmul] [out0] then do
    let a ← pyIdxI matmul.input (1 - (weight_index : Int))
    let b ← pyIdx matmul.input weight_index
    let inputs ← (match bias_index with
      | Option.some bi => do
          let c ← pyIdx node.input bi
          pure [a, b, c]
      | Option.none => pure [a, b])
    let fname := createNodeName m "GemmFastGelu"
    let fused : Node :=
      { op_type := "GemmFastGelu", input := inputs, output := node.output,
        name := fname, domain := "com.microsoft", attrs := [] }
    pure { nodes_to_remove := st.nodes_to_remove ++ [node, matmul],
           nodes_to_add := st.nodes_to_add ++ [fused],
           node_name_to_graph_name := dictSet st.node_name_to_graph_name fname m.thisGraphName }
  else
    pure st

/-- `FusionGemmFastGelu.fuse` (fusion_gemmfastgelu.py lines 20-77).  The statement `[matmul] = self.model.match_parent_path(node, ["MatMul"], [0])` unpacks the result: unpacking `None` raises TypeError and unpacking a list of length other than one raises ValueError, so the following `if matmul is None: return` is unreachable (a successful match never contains `None`). -/
def fuse (m : Model) (st : FusionState) (node : Node) : Except PyErr FusionState :=
  match matchParentPath m node ["MatMul"] [0] with
  | Option.none => Except.error PyErr.typeError
  | Option.some [] => Except.error PyErr.valueError
  | Option.some (_ :: _ :: _) => Except.error PyErr.valueError
  | Option.some [matmul] =>
    match findConstOperand m matmul.input with
    | Option.none => Except.ok st
    | Option.some (weight_index, weight) =>
      if weight.dims.length ≠ 2 then Except.ok st
      else if node.input.length = 2 then
        match findConstOperand m node.input with
        | Option.none => Except.ok st
        | Option.some (bias_index, bias_weight) =>
          if bias_weight.dims.length ≠ 1 then Except.ok st
          else fuseStage m st node matmul weight_index (Option.some bias_index)
      else fuseStage m st node matmul weight_index Option.none

/-- Python `==` on scalar attribute values: numbers compare numerically, `nan` is never equal to anything, `None` equals only `None`. -/
def pyScalarEq : PScalar → PScalar → Bool
  | PScalar.none, PScalar.none => true
  | PScalar.num a, PScalar.num b => a == b
  | PScalar.str a, PScalar.str b => a == b
  | _, _ => false

/-- Element-wise equality of two flat lists (`numpy.array_equal(..., equal_nan=False)` and Python list `==` coincide on flat lists): equal lengths and `pyScalarEq` element-wise. -/
def pyListEq : List PScalar → List PScalar → Bool
  | [], [] => true
  | a :: as_, b :: bs => pyScalarEq a b && pyListEq as_ bs
  | _, _ => false

/-- Python `==` on attribute values: a scalar never equals a list. -/
def pyEq : PVal → PVal → Bool
  | PVal.scalar a, PVal.scalar b => pyScalarEq a b
  | PVal.list a, PVal.list b => pyListEq a b
  | _, _ => false

/-- The attribute lookup loop of `check_node_attribute`: `value = default_value`, then every matching attribute overwrites it (the last match wins). -/
def lookupAttrLast (attrs : List Attr) (aname : String) (dflt : PVal) : PVal :=
  attrs.foldl (fun v a => if a.name == aname then a.value else v) dflt

def isPList : PVal → Bool
  | PVal.list _ => true
  | _ => false

/-- `FusionUtils.check_node_attribute` (fusion_utils.py lines 61-84).  `helper.get_attribute_value` never yields an `ndarray`, so `isinstance(value, ndarray) or isinstance(value, list)` is a list test here; `array_equal(expected_value, value, equal_nan=False)` is length plus element-wise equality in which `nan` equals nothing. -/
def check_node_attribute (node : Node) (attribute_name : String)
    (expected_value default_value : PVal) : Bool :=
  let value := lookupAttrLast node.attrs attribute_name default_value
  match expected_value with
  | PVal.list xs =>
    isPList value &&
      (match value with
       | PVal.list ys => pyListEq xs ys
       | _ => false)
  | PVal.scalar _ => pyEq value expected_value

/-- Follows the claim's words for C9: the node's attribute with the given name (or the supplied default when it is absent) must equal the expected value under exact equality; when the expected value is a list, the stored value must be a list and the comparison is element-wise with `nan` equal to nothing. -/
def attributeEqualsSpec (node : Node) (aname : String) (expected dflt : PVal) : Bool :=
  let value :=
    match node.attrs.find? (fun a => a.name == aname) with
    | Option.some a => a.value
    | Option.none => dflt
  match expected, value with
  | PVal.list xs, PVal.list ys =>
    xs.length == ys.length && (xs.zip ys).all (fun p => pyScalarEq p.1 p.2)
  | PVal.list _, _ => false
  | PVal.scalar e, v => pyEq v (PVal.scalar e)

/-- Truthiness of `x != 0` for a numpy constant: a scalar or single-element array yields a boolean, a multi-element array raises ValueError (ambiguous truth value), an empty array is falsy. -/
def pyTruthNe0 (t : Tensor) : Except PyErr Bool :=
  match t.data with
  | [] => Except.ok false
  | [x] => Except.ok (x != 0)
  | _ => Except.error PyErr.valueError

/-- `FusionUtils.check_qdq_node_for_fusion` (fusion_utils.py lines 86-113).  The op-type test at the top only logs and has no effect on the result. -/
def check_qdq_node_for_fusion (node : Node) (m : Model) : Except PyErr Bool := do
  let s1 ← pyIdx node.input 1
  if (getConstantValue m s1).isNone then
    pure false
  else if node.input.length ≠ 3 then
    pure true
  else do
    let s2 ← pyIdx node.input 2
    match getConstantValue m s2 with
    | Option.none => pure false
    | Option.some zp => do
      let b ← pyTruthNe0 zp
      if b then pure false else pure true

/-- `FusionUtils.get_dtype` (fusion_utils.py lines 137-156): first the model's own declared type, then the inference helper's `known_vi_` (a plain dict access that raises KeyError when the name is absent) with the `HasField("elem_type")` test. -/
def get_dtype (m : Model) (shape_infer_helper : Option InferResult) (tname : String) :
    Except PyErr (Option Nat) :=
  match lookupS m.modelDtypes tname with
  | Option.some d => Except.ok (Option.some d)
  | Option.none =>
    match shape_infer_helper with
    | Option.some h =>
      match lookupS h.knownVi tname with
      | Option.none => Except.error PyErr.keyError
      | Option.some (Option.some et) => Except.ok (Option.some et)
      | Option.some Option.none => Except.ok Option.none
    | Option.none => Except.ok Option.none

/-- `node.input[0] = parent.input[0]` of `remove_cascaded_cast_nodes`; a Cast parent with an empty input list would raise IndexError in the source, which cannot occur in a well-formed graph, so `headD` stands in for that read. -/
def setInput0 (n : Node) (s : String) : Node :=
  { n with input := n.input.set 0 s }

/-- One iteration of the `remove_cascaded_cast_nodes` loop at node index `i` (fusion_utils.py lines 165-170): a Cast node whose producer is itself a Cast gets its input 0 rewritten to the producer's current input 0; the boolean reports whether a rewrite happened. -/
def cascadeStep (ns : List Node) (i : Nat) : List Node × Bool :=
  match ns.get? i with
  | Option.none => (ns, false)
  | Option.some n =>
    if n.op_type == "Cast" then
      match getParentIn ns n 0 with
      | Option.some p =>
        if p.op_type == "Cast" then (ns.set i (setInput0 n (p.input.headD "")), true)
        else (ns, false)
      | Option.none => (ns, false)
    else (ns, false)

/-- Run the cascade loop over the given node indices, counting rewrites (`removed_count`). -/
def cascadeRun : List Node → Nat → List Nat → List Node × Nat
  | ns, c, [] => (ns, c)
  | ns, c, i :: rest =>
    let r := cascadeStep ns i
    cascadeRun r.1 (c + (if r.2 then 1 else 0)) rest

/-- The full in-place sweep of `remove_cascaded_cast_nodes` over `self.model.nodes()`. -/
def cascadeSweep (ns : List Node) : List Node × Nat :=
  cascadeRun ns 0 (List.range ns.length)

/-- `FusionUtils.remove_cascaded_cast_nodes` (fusion_utils.py lines 158-174): sweep, then prune the graph only when `removed_count > 0`. -/
def remove_cascaded_cast_nodes (m : Model) : Model :=
  let r := cascadeSweep m.nodes
  if 0 < r.2 then pruneGraph { m with nodes := r.1 } else { m with nodes := r.1 }

/-- The collection condition of `remove_useless_cast_nodes` (fusion_utils.py lines 196-200): `input_dtype and input_dtype == output_dtype`, where `None` and the dtype `0` are falsy in Python. -/
def castDtypeCond (m : Model) (si : InferResult) (n : Node) : Except PyErr Bool := do
  let i0 ← pyIdx n.input 0
  let o0 ← pyIdx n.output 0
  let idt ← get_dtype m (Option.some si) i0
  let odt ← get_dtype m (Option.some si) o0
  match idt with
  | Option.some d => if d ≠ 0 then pure (odt == Option.some d) else pure false
  | Option.none => pure false

/-- The `nodes_to_remove` collection loop of `remove_useless_cast_nodes` (fusion_utils.py lines 194-200). -/
def collectUselessCasts (m : Model) (si : InferResult) : List Node → Except PyErr (List Node)
  | [] => Except.ok []
  | n :: rest =>
    if n.op_type == "Cast" then do
      let b ← castDtypeCond m si n
      let l ← collectUselessCasts m si rest
      pure (if b then n :: l else l)
    else collectUselessCasts m si rest

/-- The removal loop shared by `remove_useless_cast_nodes` and `remove_useless_reshape_nodes` (fusion_utils.py lines 205-213 and 236-244): boundary handling on graph outputs and graph inputs, then splice or rename and remove.  The Python `nodes_to_remove` list holds references to the graph's own node objects, so the in-place renamings performed by `replace_input_of_all_nodes` / `replace_output_of_all_nodes` are also visible in the not-yet-processed entries and in the node being removed; the recursion applies the same per-node renaming to the pending tail and to the current node before the value-based removal to model that aliasing. -/
def processUselessNodes (graph_input_names graph_output_names : List String) :
    Model → List Node → Except PyErr Model
  | m, [] => Except.ok m
  | m, node :: rest =>
    if node.output.any (fun t => graph_output_names.contains t) then
      if !(node.input.any (fun s => graph_input_names.contains s)) then do
        let i0 ← pyIdx node.input 0
        let o0 ← pyIdx node.output 0
        processUselessNodes graph_input_names graph_output_names
          (removeNode (replaceOutputOfAllNodes m i0 o0) (renameOutputs i0 o0 node))
          (rest.map (renameOutputs i0 o0))
      else processUselessNodes graph_input_names graph_output_names m rest
    else do
      let i0 ← pyIdx node.input 0
      let o0 ← pyIdx node.output 0
      processUselessNodes graph_input_names graph_output_names
        (removeNode (replaceInputOfAllNodes m o0 i0) (renameInputs o0 i0 node))
        (rest.map (renameInputs o0 i0))
termination_by _ l => l.length
decreasing_by all_goals simp [List.length_map]

/-- `FusionUtils.remove_useless_cast_nodes` (fusion_utils.py lines 188-214): skip entirely when shape inference is unavailable. -/
def remove_useless_cast_nodes (m : Model) : Except PyErr Model :=
  match m.inferResult with
  | Option.none => Except.ok m
  | Option.some si => do
    let nodes_to_remove ← collectUselessCasts m si m.nodes
    if nodes_to_remove.isEmpty then pure m
    else processUselessNodes m.graphInputs m.graphOutputs m nodes_to_remove

def getEdgeShape (si : InferResult) (tname : String) : Option (List Nat) :=
  lookupS si.edgeShapes tname

/-- The collection condition of `remove_useless_reshape_nodes` (fusion_utils.py lines 224-231): `input_shape and output_shape and input_shape == output_shape`, where `None` and an empty shape are falsy. -/
def reshapeShapeCond (si : InferResult) (n : Node) : Except PyErr Bool := do
  let i0 ← pyIdx n.input 0
  let o0 ← pyIdx n.output 0
  match getEdgeShape si i0, getEdgeShape si o0 with
  | Option.some a, Option.some b => pure (!a.isEmpty && !b.isEmpty && a == b)
  | _, _ => pure false

/-- The `nodes_to_remove` collection loop of `remove_useless_reshape_nodes` (fusion_utils.py lines 222-231). -/
def collectUselessReshapes (si : InferResult) : List Node → Except PyErr (List Node)
  | [] => Except.ok []
  | n :: rest =>
    if n.op_type == "Reshape" then do
      let b ← reshapeShapeCond si n
      let l ← collectUselessReshapes si rest
      pure (if b then n :: l else l)
    else collectUselessReshapes si rest

/-- `FusionUtils.remove_useless_reshape_nodes` (fusion_utils.py lines 216-244): skip entirely when shape inference is unavailable. -/
def remove_useless_reshape_nodes (m : Model) : Except PyErr Model :=
  match m.inferResult with
  | Option.none => Except.ok m
  | Option.some si => do
    let nodes_to_remove ← collectUselessReshapes si m.nodes
    if nodes_to_remove.isEmpty then pure m
    else processUselessNodes m.graphInputs m.graphOutputs m nodes_to_remove

/-- Rank-2 weight constant for the linear-projection scenario. -/
def wTensor : Tensor := { dims := [2, 2], data := [1, 0, 0, 1] }

/-- Rank-1 bias constant for the linear-projection scenario. -/
def bTensor : Tensor := { dims := [2], data := [0, 0] }

def matmulNodeA : Node :=
  { op_type := "MatMul", input := ["X", "W"], output := ["mm"],
    name := "MatMul_1", domain := "", attrs := [] }

def fastgeluNodeA : Node :=
  { op_type := "FastGelu", input := ["mm", "B"], output := ["Y"],
    name := "FastGelu_1", domain := "", attrs := [] }

/-- The linear-projection-plus-activation scenario graph: `MatMul(X, W) -> FastGelu(, B)` with `W` rank-2 constant and `B` rank-1 constant. -/
def modelA : Model :=
  { nodes := [matmulNodeA, fastgeluNodeA],
    initTensors := [("W", wTensor), ("B", bTensor)], constants := [],
    graphInputs := ["X"], graphOutputs := ["Y"], modelDtypes := [],
    inferResult := Option.none, thisGraphName := "main" }

def emptyFusionState : FusionState :=
  { nodes_to_remove := [], nodes_to_add := [], node_name_to_graph_name := [] }

def reluNodeC : Node :=
  { op_type := "Relu", input := ["mm"], output := ["Z"],
    name := "Relu_1", domain := "", attrs := [] }

/-- The unsafe-fusion scenario graph: as `modelA` but the MatMul output `mm` is also consumed by an unrelated `Relu` node. -/
def modelUnsafe : Model :=
  { nodes := [matmulNodeA, fastgeluNodeA, reluNodeC],
    initTensors := [("W", wTensor), ("B", bTensor)], constants := [],
    graphInputs := ["X"], graphOutputs := ["Y", "Z"], modelDtypes := [],
    inferResult := Option.none, thisGraphName := "main" }

def fastgeluNodeNoMM : Node :=
  { op_type := "FastGelu", input := ["X"], output := ["Y"],
    name := "FastGelu_2", domain := "", attrs := [] }

/-- A trigger FastGelu node whose input 0 is a graph input, so the backward match for `["MatMul"]` finds nothing. -/
def modelNoMM : Model :=
  { nodes := [fastgeluNodeNoMM], initTensors := [], constants := [],
    graphInputs := ["X"], graphOutputs := ["Y"], modelDtypes := [],
    inferResult := Option.none, thisGraphName := "main" }

/-- A per-channel (non-scalar) scale constant: rank 1 with two elements. -/
def perChannelScale : Tensor := { dims := [2], data := [1, 2] }

def dqNodePerChannel : Node :=
  { op_type := "DequantizeLinear", input := ["x", "scale2"], output := ["y"],
    name := "DQ_1", domain := "", attrs := [] }

/-- A two-input DequantizeLinear node whose scale operand is a per-channel constant. -/
def modelPerChannel : Model :=
  { nodes := [dqNodePerChannel], initTensors := [], constants := [("scale2", perChannelScale)],
    graphInputs := ["x"], graphOutputs := ["y"], modelDtypes := [],
    inferResult := Option.none, thisGraphName := "main" }

def castNodeB : Node :=
  { op_type := "Cast", input := ["Xb"], output := ["Yb"],
    name := "Cast_B", domain := "", attrs := [] }

/-- The redundant-conversion-at-a-boundary scenario: one Cast from the graph input `Xb` to the graph output `Yb`, both with declared dtype 1. -/
def modelBoundary : Model :=
  { nodes := [castNodeB], initTensors := [], constants := [],
    graphInputs := ["Xb"], graphOutputs := ["Yb"], modelDtypes := [("Xb", 1), ("Yb", 1)],
    inferResult := Option.some { knownVi := [], edgeShapes := [] }, thisGraphName := "main" }

def matmulNodeNoConst : Node :=
  { op_type := "MatMul", input := ["X", "V"], output := ["mm6"],
    name := "MatMul_6", domain := "", attrs := [] }

def fastgeluNode6 : Node :=
  { op_type := "FastGelu", input := ["mm6", "B"], output := ["Y6"],
    name := "FastGelu_6", domain := "", attrs := [] }

/-- A matched pair whose MatMul has no constant operand at all. -/
def modelNoConst : Model :=
  { nodes := [matmulNodeNoConst, fastgeluNode6],
    initTensors := [("B", bTensor)], constants := [],
    graphInputs := ["X", "V"], graphOutputs := ["Y6"], modelDtypes := [],
    inferResult := Option.none, thisGraphName := "main" }

def castNode1 : Node :=
  { op_type := "Cast", input := ["A"], output := ["t1"],
    name := "Cast_1", domain := "", attrs := [] }

def castNode2 : Node :=
  { op_type := "Cast", input := ["t1"], output := ["Y7"],
    name := "Cast_2", domain := "", attrs := [] }

/-- The cascaded-conversions scenario: `A -> Cast -> Cast -> Y7`. -/
def modelCascade : Model :=
  { nodes := [castNode1, castNode2], initTensors := [], constants := [],
    graphInputs := ["A"], graphOutputs := ["Y7"], modelDtypes := [],
    inferResult := Option.none, thisGraphName := "main" }

/-- A graph with a single Cast fed by the graph input: no cascade, so no rewrite and no pruning. -/
def modelNoCascade : Model :=
  { nodes := [castNode1], initTensors := [], constants := [],
    graphInputs := ["A"], graphOutputs := ["t1"], modelDtypes := [],
    inferResult := Option.none, thisGraphName := "main" }

/-- A node carrying a single `axis` attribute, for the attribute-check claim. -/
def attrNode9 : Node :=
  { op_type := "Softmax", input := ["in9"], output := ["out9"],
    name := "Softmax_9", domain := "",
    attrs := [{ name := "axis", value := PVal.scalar (PScalar.num 2) }] }

def reluNode10 : Node :=
  { op_type := "Relu", input := ["a10", "s10"], output := ["o10"],
    name := "Relu_10", domain := "", attrs := [] }

/-- A node that is neither QuantizeLinear nor DequantizeLinear, with exactly two inputs and a constant second input. -/
def modelNonQdq : Model :=
  { nodes := [reluNode10], initTensors := [],
    constants := [("s10", { dims := [], data := [7] })],
    graphInputs := ["a10"], graphOutputs := ["o10"], modelDtypes := [],
    inferResult := Option.none, thisGraphName := "main" }

/-- C3: on a trigger node whose backward match for `["MatMul"]` at input index 0 finds no match, `fuse` does not return normally: the unpacking assignment `[matmul] = self.model.match_parent_path(...)` raises TypeError on the `None` result, staging nothing, where the claim (and the dead `if matmul is None: return` in the source) expects a silent abstain. -/
theorem claim_C3_fuse_nomatch_raises :
    matchParentPath modelNoMM fastgeluNodeNoMM ["MatMul"] [0] = Option.none ∧
    fuse modelNoMM emptyFusionState fastgeluNodeNoMM = Except.error PyErr.typeError :=
  ⟨rfl, rfl⟩

/-- C4: `check_qdq_node_for_fusion` accepts a two-input node whose scale operand is a constant per-channel (non-scalar) tensor, although both the claim and the function's own docstring say per-channel scale is never eligible: the code never inspects the scale's shape. -/
theorem claim_C4_perchannel_scale_accepted :
    perChannelScale.dims = [2] ∧
    getConstantValue modelPerChannel "scale2" = Option.some perChannelScale ∧
    check_qdq_node_for_fusion dqNodePerChannel modelPerChannel = Except.ok true :=
  ⟨rfl, rfl, rfl⟩

/-- C8: when shape/type inference is unavailable (`infer_runtime_shape` yields nothing), both `remove_useless_cast_nodes` and `remove_useless_reshape_nodes` return immediately with the model unchanged. -/
theorem claim_C8_inference_unavailable (m : Model) (h : m.inferResult = Option.none) :
    remove_useless_cast_nodes m = Except.ok m ∧
    remove_useless_reshape_nodes m = Except.ok m := by
  unfold remove_useless_cast_nodes remove_useless_reshape_nodes
  rw [h]
  exact ⟨rfl, rfl⟩

theorem claim_C8_inference_unavailable_witness :
    modelNoCascade.inferResult = Option.none ∧
    remove_useless_cast_nodes modelNoCascade = Except.ok modelNoCascade ∧
    remove_useless_reshape_nodes modelNoCascade = Except.ok modelNoCascade :=
  ⟨rfl, (claim_C8_inference_unavailable modelNoCascade rfl).1,
    (claim_C8_inference_unavailable modelNoCascade rfl).2⟩

/-- C10: `check_qdq_node_for_fusion` never inspects the operator type — replacing the node's `op_type` by anything leaves the result unchanged — and any node with exactly two inputs whose second input resolves to a constant yields `true`, exactly as a genuine Q/DQ node would. -/
theorem claim_C10_qdq_optype_irrelevant (node : Node) (m : Model) (o s : String) (t : Tensor)
    (h2 : node.input.length = 2)
    (hs : node.input[1]? = Option.some s)
    (hc : getConstantValue m s = Option.some t) :
    check_qdq_node_for_fusion { node with op_type := o } m = check_qdq_node_for_fusion node m ∧
    check_qdq_node_for_fusion node m = Except.ok true := by
  refine ⟨rfl, ?_⟩
  simp [check_qdq_node_for_fusion, pyIdx, hs, hc, h2,
    Bind.bind, Except.bind, Pure.pure, Except.pure]

theorem claim_C10_qdq_optype_irrelevant_witness :
    check_qdq_node_for_fusion { reluNode10 with op_type := "QuantizeLinear" } modelNonQdq
      = check_qdq_node_for_fusion reluNode10 modelNonQdq ∧
    check_qdq_node_for_fusion reluNode10 modelNonQdq = Except.ok true :=
  claim_C10_qdq_optype_irrelevant reluNode10 modelNonQdq "QuantizeLinear" "s10"
    { dims := [], data := [7] } rfl rfl rfl

/-- C1: for a trigger FastGelu node with exactly two inputs whose input-0 producer is a MatMul with a rank-2 constant weight operand (the other operand non-constant), whose own second constant operand is rank-1, and whose safety check succeeds, `fuse` stages removal of exactly the FastGelu and MatMul nodes and stages one new node of type GemmFastGelu in domain com.microsoft whose inputs are the non-constant MatMul operand, the constant weight, and the constant bias, in that order, and whose output list equals the trigger node's output list. -/
theorem claim_C1_fuse_success (m : Model) (st : FusionState) (node matmul : Node)
    (i0 i1 xname wname out : String) (wi : Nat) (W B : Tensor)
    (hmatch : matchParentPath m node ["MatMul"] [0] = Option.some [matmul])
    (hni : node.input = [i0, i1])
    (hlen : matmul.input.length = 2)
    (hwi : wi < 2)
    (hxg : matmul.input[1 - wi]? = Option.some xname)
    (hwg : matmul.input[wi]? = Option.some wname)
    (hxnc : getInitTensor m xname = Option.none)
    (hwc : getInitTensor m wname = Option.some W)
    (hW : W.dims.length = 2)
    (hb0 : getInitTensor m i0 = Option.none)
    (hb1 : getInitTensor m i1 = Option.some B)
    (hB : B.dims.length = 1)
    (hout : node.output[0]? = Option.some out)
    (hsafe : isSafeToFuseNodes m [node, matmul] [out] = true) :
    fuse m st node = Except.ok
      { nodes_to_remove := st.nodes_to_remove ++ [node, matmul],
        nodes_to_add := st.nodes_to_add ++
          [{ op_type := "GemmFastGelu", input := [xname, wname, i1], output := node.output,
             name := createNodeName m "GemmFastGelu", domain := "com.microsoft", attrs := [] }],
        node_name_to_graph_name :=
          dictSet st.node_name_to_graph_name (createNodeName m "GemmFastGelu") m.thisGraphName } := by
  obtain ⟨a, b, hab⟩ : ∃ a b, matmul.input = [a, b] := by
    match matmul.input, hlen with
    | [a, b], _ => exact ⟨a, b, rfl⟩
  unfold fuse
  rw [hmatch]
  interval_cases wi
  · rw [hab] at hxg hwg
    have ha : a = wname := by simpa using hwg
    have hb2 : b = xname := by simpa using hxg
    subst ha; subst hb2
    simp [findConstOperand, findConstGo, hab, hwc, hxnc, hW, hni, hb0, hb1, hB,
          fuseStage, pyIdx, pyIdxI, hout, hsafe, Bind.bind, Except.bind, Pure.pure, Except.pure]
  · rw [hab] at hxg hwg
    have ha : a = xname := by simpa using hxg
    have hb2 : b = wname := by simpa using hwg
    subst ha; subst hb2
    simp [findConstOperand, findConstGo, hab, hwc, hxnc, hW, hni, hb0, hb1, hB,
          fuseStage, pyIdx, pyIdxI, hout, hsafe, Bind.bind, Except.bind, Pure.pure, Except.pure]

theorem claim_C1_fuse_success_witness :
    fuse modelA emptyFusionState fastgeluNodeA = Except.ok
      { nodes_to_remove := [fastgeluNodeA, matmulNodeA],
        nodes_to_add := [{ op_type := "GemmFastGelu", input := ["X", "W", "B"], output := ["Y"],
                           name := createNodeName modelA "GemmFastGelu",
                           domain := "com.microsoft", attrs := [] }],
        node_name_to_graph_name := dictSet [] (createNodeName modelA "GemmFastGelu") "main" } :=
  claim_C1_fuse_success modelA emptyFusionState fastgeluNodeA matmulNodeA "mm" "B" "X" "W" "Y"
    1 wTensor bTensor rfl rfl rfl (by norm_num) rfl rfl rfl rfl rfl rfl rfl rfl rfl rfl

/-- C2: whenever the matched FastGelu/MatMul pair passes the constant and rank validation but the safety check with the trigger's output as the sole surviving output returns false, `fuse` returns normally and leaves the staged edits (`nodes_to_remove`, `nodes_to_add`, `node_name_to_graph_name`) unchanged. -/
theorem claim_C2_fuse_unsafe (m : Model) (st : FusionState) (node matmul : Node)
    (wi bi : Nat) (W B : Tensor) (out : String)
    (hmatch : matchParentPath m node ["MatMul"] [0] = Option.some [matmul])
    (hfw : findConstOperand m matmul.input = Option.some (wi, W))
    (hW : W.dims.length = 2)
    (hb : node.input.length = 2 → findConstOperand m node.input = Option.some (bi, B))
    (hbr : node.input.length = 2 → B.dims.length = 1)
    (hout : node.output[0]? = Option.some out)
    (hsafe : isSafeToFuseNodes m [node, matmul] [out] = false) :
    fuse m st node = Except.ok st := by
  unfold fuse
  rw [hmatch]
  by_cases h2 : node.input.length = 2
  · simp [hfw, hW, h2, hb h2, hbr h2, fuseStage, pyIdx, hout, hsafe,
      Bind.bind, Except.bind, Pure.pure, Except.pure]
  · simp [hfw, hW, h2, fuseStage, pyIdx, hout, hsafe,
      Bind.bind, Except.bind, Pure.pure, Except.pure]

theorem claim_C2_fuse_unsafe_witness :
    fuse modelUnsafe emptyFusionState fastgeluNodeA = Except.ok emptyFusionState :=
  claim_C2_fuse_unsafe modelUnsafe emptyFusionState fastgeluNodeA matmulNodeA 1 1 wTensor bTensor
    "Y" rfl rfl rfl (fun _ => rfl) (fun _ => rfl) rfl rfl

/-- C6: after a successful backward match, `fuse` abstains — returns normally, staging nothing — whenever the MatMul has no constant input, its first constant input has rank other than 2, or (when the trigger has two inputs) the trigger has no constant input or its first constant input has rank other than 1. -/
theorem claim_C6_fuse_abstains (m : Model) (st : FusionState) (node matmul : Node)
    (wi bi : Nat) (W B : Tensor)
    (hmatch : matchParentPath m node ["MatMul"] [0] = Option.some [matmul]) :
    (findConstOperand m matmul.input = Option.none → fuse m st node = Except.ok st) ∧
    (findConstOperand m matmul.input = Option.some (wi, W) → W.dims.length ≠ 2 →
      fuse m st node = Except.ok st) ∧
    (node.input.length = 2 → findConstOperand m matmul.input = Option.some (wi, W) →
      W.dims.length = 2 → findConstOperand m node.input = Option.none →
      fuse m st node = Except.ok st) ∧
    (node.input.length = 2 → findConstOperand m matmul.input = Option.some (wi, W) →
      W.dims.length = 2 → findConstOperand m node.input = Option.some (bi, B) →
      B.dims.length ≠ 1 → fuse m st node = Except.ok st) := by
  refine ⟨?_, ?_, ?_, ?_⟩
  · intro h1
    unfold fuse
    rw [hmatch]
    simp [h1]
  · intro h1 h2
    unfold fuse
    rw [hmatch]
    simp [h1, h2]
  · intro hlen2 h1 hW2 hnone
    unfold fuse
    rw [hmatch]
    simp [h1, hW2, hlen2, hnone]
  · intro hlen2 h1 hW2 hsome hB1
    unfold fuse
    rw [hmatch]
    simp [h1, hW2, hlen2, hsome, hB1]

theorem claim_C6_fuse_abstains_witness :
    fuse modelNoConst emptyFusionState fastgeluNode6 = Except.ok emptyFusionState :=
  (claim_C6_fuse_abstains modelNoConst emptyFusionState fastgeluNode6 matmulNodeNoConst
    0 0 wTensor bTensor rfl).1 rfl

theorem lookupAttrLast_keep (attrs : List Attr) (aname : String) (v : PVal)
    (h : ∀ a ∈ attrs, (a.name == aname) = false) :
    lookupAttrLast attrs aname v = v := by
  induction attrs generalizing v with
  | nil => rfl
  | cons a rest ih =>
    have ha : ¬ a.name = aname := by simpa using h a (by simp)
    have hstep : lookupAttrLast (a :: rest) aname v = lookupAttrLast rest aname v := by
      simp [lookupAttrLast, ha]
    rw [hstep]
    exact ih v (fun b hb => h b (by simp [hb]))

theorem lookupAttrLast_eq_findAttr (attrs : List Attr) (aname : String) (d : PVal)
    (huniq : (attrs.filter (fun a => a.name == aname)).length ≤ 1) :
    lookupAttrLast attrs aname d =
      (match attrs.find? (fun a => a.name == aname) with
       | Option.some a => a.value
       | Option.none => d) := by
  induction attrs generalizing d with
  | nil => rfl
  | cons a rest ih =>
    by_cases ha : (a.name == aname) = true
    · have haeq : a.name = aname := by simpa using ha
      have hfil : rest.filter (fun a => a.name == aname) = [] := by
        rw [List.filter_cons_of_pos (p := fun x : Attr => x.name == aname) ha] at huniq
        simp only [List.length_cons] at huniq
        exact List.length_eq_zero.mp (by omega)
      have hrest : ∀ b ∈ rest, (b.name == aname) = false := by
        intro b hb
        by_contra hcon
        have hmemf : b ∈ rest.filter (fun a => a.name == aname) := by
          refine List.mem_filter.mpr ⟨hb, ?_⟩
          simpa using hcon
        rw [hfil] at hmemf
        simp at hmemf
      have hstep : lookupAttrLast (a :: rest) aname d = lookupAttrLast rest aname a.value := by
        simp [lookupAttrLast, haeq]
      rw [hstep, lookupAttrLast_keep rest aname a.value hrest,
        List.find?_cons_of_pos rest ha]
    · have hane : ¬ a.name = aname := by simpa using ha
      have hstep : lookupAttrLast (a :: rest) aname d = lookupAttrLast rest aname d := by
        simp [lookupAttrLast, hane]
      rw [hstep, List.find?_cons_of_neg rest ha]
      rw [List.filter_cons_of_neg (p := fun x : Attr => x.name == aname) ha] at huniq
      exact ih d huniq

theorem pyListEq_eq_zip (xs ys : List PScalar) :
    pyListEq xs ys =
      (xs.length == ys.length && (xs.zip ys).all (fun p => pyScalarEq p.1 p.2)) := by
  induction xs generalizing ys with
  | nil => cases ys <;> simp [pyListEq]
  | cons a as_ ih =>
    cases ys with
    | nil => simp [pyListEq]
    | cons b bs =>
      rw [pyListEq, ih bs]
      simp [List.zip]
      cases pyScalarEq a b <;> cases hlen : as_.length == bs.length <;> simp [hlen]

/-- C9: `check_node_attribute` agrees with the claim's reading — the node's attribute with the given name (or the default when absent, the attribute occurring at most once) is compared with the expected value under exact equality; a list expectation requires a stored list compared element-wise with `nan` equal to nothing. -/
theorem claim_C9_check_node_attribute (node : Node) (aname : String) (e d : PVal)
    (huniq : (node.attrs.filter (fun a => a.name == aname)).length ≤ 1) :
    check_node_attribute node aname e d = attributeEqualsSpec node aname e d := by
  unfold check_node_attribute attributeEqualsSpec
  rw [lookupAttrLast_eq_findAttr node.attrs aname d huniq]
  cases e with
  | scalar s => rfl
  | list xs =>
    cases hv : (match node.attrs.find? (fun a => a.name == aname) with
                | Option.some a => a.value
                | Option.none => d) with
    | scalar s => simp [isPList]
    | list ys => simp [isPList, pyListEq_eq_zip]

theorem claim_C9_check_node_attribute_witness :
    (attrNode9.attrs.filter (fun a => a.name == "axis")).length ≤ 1 ∧
    check_node_attribute attrNode9 "axis" (PVal.scalar (PScalar.num 2)) (PVal.scalar PScalar.none)
      = attributeEqualsSpec attrNode9 "axis" (PVal.scalar (PScalar.num 2)) (PVal.scalar PScalar.none) :=
  ⟨by decide, claim_C9_check_node_attribute attrNode9 "axis" (PVal.scalar (PScalar.num 2))
    (PVal.scalar PScalar.none) (by decide)⟩

theorem mem_collectUselessCasts (m : Model) (si : InferResult) (c : Node)
    (hcast : c.op_type = "Cast") (hcond : castDtypeCond m si c = Except.ok true) :
    ∀ ns l, c ∈ ns → collectUselessCasts m si ns = Except.ok l → c ∈ l := by
  intro ns
  induction ns with
  | nil =>
    intro l hmem _
    simp at hmem
  | cons n rest ih =>
    intro l hmem hcol
    rw [List.mem_cons] at hmem
    by_cases hn : (n.op_type == "Cast") = true
    · rw [collectUselessCasts, if_pos hn] at hcol
      cases hb : castDtypeCond m si n with
      | error e =>
        rw [hb] at hcol
        simp [Bind.bind, Except.bind] at hcol
      | ok b =>
        rw [hb] at hcol
        cases hr : collectUselessCasts m si rest with
        | error e =>
          rw [hr] at hcol
          simp [Bind.bind, Except.bind] at hcol
        | ok lrest =>
          rw [hr] at hcol
          simp [Bind.bind, Except.bind, Pure.pure, Except.pure] at hcol
          cases hmem with
          | inl heq =>
            subst heq
            rw [hcond] at hb
            cases hb
            rw [← hcol]
            simp
          | inr hm =>
            have hmem2 : c ∈ lrest := ih lrest hm hr
            rw [← hcol]
            cases b <;> simp [hmem2]
    · rw [collectUselessCasts, if_neg hn] at hcol
      cases hmem with
      | inl heq =>
        subst heq
        simp [hcast] at hn
      | inr hm => exact ih l hm hcol

/-- C5: in `remove_useless_cast_nodes`, every Cast node whose inferred input data type equals its inferred output data type is collected, the pass runs the removal loop over the collected nodes, and the loop step on such a node (its current value, since the collected entries alias the graph's mutable nodes) behaves as claimed: output a graph output and input not a graph input — the node is removed and the producer's output named by the Cast's input is renamed to the Cast's output name; output a graph output and input also a graph input — the step abstains, touching neither the model nor the node; otherwise — the node is removed and all consumers of its output are rewired to read its input directly, the pending tail seeing the renaming through the in-place aliasing. -/
theorem claim_C5_remove_useless_cast (m : Model) (si : InferResult) (c : Node)
    (x y : String) (d : Nat) (l : List Node) (st : Model) (rest : List Node)
    (hsi : m.inferResult = Option.some si)
    (hin : c.input = [x]) (hout : c.output = [y])
    (hmem : c ∈ m.nodes) (hcast : c.op_type = "Cast")
    (hd0 : d ≠ 0)
    (hidt : get_dtype m (Option.some si) x = Except.ok (Option.some d))
    (hodt : get_dtype m (Option.some si) y = Except.ok (Option.some d))
    (hl : collectUselessCasts m si m.nodes = Except.ok l) :
    c ∈ l ∧
    remove_useless_cast_nodes m = processUselessNodes m.graphInputs m.graphOutputs m l ∧
    (y ∈ m.graphOutputs → ¬ x ∈ m.graphInputs →
      processUselessNodes m.graphInputs m.graphOutputs st (c :: rest) =
        processUselessNodes m.graphInputs m.graphOutputs
          (removeNode (replaceOutputOfAllNodes st x y) c) (rest.map (renameOutputs x y))) ∧
    (y ∈ m.graphOutputs → x ∈ m.graphInputs →
      processUselessNodes m.graphInputs m.graphOutputs st (c :: rest) =
        processUselessNodes m.graphInputs m.graphOutputs st rest) ∧
    (¬ y ∈ m.graphOutputs →
      processUselessNodes m.graphInputs m.graphOutputs st (c :: rest) =
        processUselessNodes m.graphInputs m.graphOutputs
          (removeNode (replaceInputOfAllNodes st y x) c) (rest.map (renameInputs y x))) := by
  have hcond : castDtypeCond m si c = Except.ok true := by
    simp [castDtypeCond, hin, hout, pyIdx, hidt, hodt, hd0,
      Bind.bind, Except.bind, Pure.pure, Except.pure]
  have hcmem : c ∈ l := mem_collectUselessCasts m si c hcast hcond m.nodes l hmem hl
  have hrenO : renameOutputs x y c = c := by
    unfold renameOutputs
    have hmap : c.output.map (fun s => if s == x then y else s) = c.output := by
      rw [hout]
      simp
    rw [hmap]
  have hrenI : renameInputs y x c = c := by
    unfold renameInputs
    have hmap : c.input.map (fun s => if s == y then x else s) = c.input := by
      rw [hin]
      simp
    rw [hmap]
  refine ⟨hcmem, ?_, ?_, ?_, ?_⟩
  · unfold remove_useless_cast_nodes
    rw [hsi]
    have hne : l.isEmpty = false := by
      cases l with
      | nil => simp at hcmem
      | cons a tl => rfl
    simp [hl, hne, Bind.bind, Except.bind]
  · intro hy hx
    simp only [processUselessNodes]
    simp [hin, hout, hy, hx, pyIdx, hrenO, Bind.bind, Except.bind]
  · intro hy hx
    simp only [processUselessNodes]
    simp [hin, hout, hy, hx]
  · intro hy
    simp only [processUselessNodes]
    simp [hin, hout, hy, pyIdx, hrenI, Bind.bind, Except.bind]

theorem claim_C5_remove_useless_cast_witness :
    castNodeB ∈ [castNodeB] ∧
    remove_useless_cast_nodes modelBoundary =
      processUselessNodes modelBoundary.graphInputs modelBoundary.graphOutputs modelBoundary
        [castNodeB] ∧
    processUselessNodes modelBoundary.graphInputs modelBoundary.graphOutputs modelBoundary
        (castNodeB :: []) =
      processUselessNodes modelBoundary.graphInputs modelBoundary.graphOutputs modelBoundary [] ∧
    processUselessNodes modelBoundary.graphInputs modelBoundary.graphOutputs modelBoundary []
      = Except.ok modelBoundary :=
  ⟨(claim_C5_remove_useless_cast modelBoundary { knownVi := [], edgeShapes := [] } castNodeB
      "Xb" "Yb" 1 [castNodeB] modelBoundary [] rfl rfl rfl (by simp [modelBoundary]) rfl
      (by norm_num) rfl rfl rfl).1,
   (claim_C5_remove_useless_cast modelBoundary { knownVi := [], edgeShapes := [] } castNodeB
      "Xb" "Yb" 1 [castNodeB] modelBoundary [] rfl rfl rfl (by simp [modelBoundary]) rfl
      (by norm_num) rfl rfl rfl).2.1,
   (claim_C5_remove_useless_cast modelBoundary { knownVi := [], edgeShapes := [] } castNodeB
      "Xb" "Yb" 1 [castNodeB] modelBoundary [] rfl rfl rfl (by simp [modelBoundary]) rfl
      (by norm_num) rfl rfl rfl).2.2.2.1
     (by simp [modelBoundary]) (by simp [modelBoundary]),
   by simp only [processUselessNodes]⟩

theorem cascadeStep_of_rewrite (ns : List Node) (i : Nat) (n p : Node)
    (hg : ns.get? i = Option.some n) (hc : n.op_type = "Cast")
    (hp : getParentIn ns n 0 = Option.some p) (hpc : p.op_type = "Cast") :
    cascadeStep ns i = (ns.set i (setInput0 n (p.input.headD "")), true) := by
  unfold cascadeStep
  rw [hg]
  simp [hp, hc, hpc]

theorem cascadeStep_snd_false (ns : List Node) (i : Nat) :
    (cascadeStep ns i).2 = false → (cascadeStep ns i).1 = ns := by
  unfold cascadeStep
  cases hg : ns.get? i with
  | none => intro _; rfl
  | some n =>
    by_cases hc : (n.op_type == "Cast") = true
    · simp only [hc, if_true]
      cases hp : getParentIn ns n 0 with
      | none => intro _; rfl
      | some p =>
        by_cases hpc : (p.op_type == "Cast") = true
        · simp [hpc]
        · simp [hpc]
    · simp [hc]

theorem cascadeStep_length (ns : List Node) (i : Nat) :
    (cascadeStep ns i).1.length = ns.length := by
  unfold cascadeStep
  cases hg : ns.get? i with
  | none => rfl
  | some n =>
    by_cases hc : (n.op_type == "Cast") = true
    · simp only [hc, if_true]
      cases hp : getParentIn ns n 0 with
      | none => rfl
      | some p =>
        by_cases hpc : (p.op_type == "Cast") = true
        · simp [hpc]
        · simp [hpc]
    · simp [hc]

theorem cascadeStep_get_ne (ns : List Node) (i j : Nat) (h : i ≠ j) :
    (cascadeStep ns i).1.get? j = ns.get? j := by
  unfold cascadeStep
  cases hg : ns.get? i with
  | none => rfl
  | some n =>
    by_cases hc : (n.op_type == "Cast") = true
    · simp only [hc, if_true]
      cases hp : getParentIn ns n 0 with
      | none => rfl
      | some p =>
        by_cases hpc : (p.op_type == "Cast") = true
        · simp [hpc, List.getElem?_set_ne h]
        · simp [hpc]
    · simp [hc]

theorem cascadeRun_length (is : List Nat) (ns : List Node) (c : Nat) :
    (cascadeRun ns c is).1.length = ns.length := by
  induction is generalizing ns c with
  | nil => rfl
  | cons i rest ih =>
    rw [cascadeRun]
    rw [ih]
    exact cascadeStep_length ns i

theorem cascadeRun_get_not_mem (is : List Nat) (ns : List Node) (c : Nat) (j : Nat)
    (h : ∀ k ∈ is, k ≠ j) :
    (cascadeRun ns c is).1.get? j = ns.get? j := by
  induction is generalizing ns c with
  | nil => rfl
  | cons i rest ih =>
    rw [cascadeRun]
    rw [ih _ _ (fun k hk => h k (by simp [hk]))]
    exact cascadeStep_get_ne ns i j (h i (by simp))

theorem cascadeRun_count_le (is : List Nat) (ns : List Node) (c : Nat) :
    c ≤ (cascadeRun ns c is).2 := by
  induction is generalizing ns c with
  | nil => exact Nat.le_refl c
  | cons i rest ih =>
    rw [cascadeRun]
    exact Nat.le_trans (Nat.le_add_right c _) (ih _ _)

theorem cascadeRun_count_fixed (is : List Nat) (ns : List Node) (c : Nat) :
    (cascadeRun ns c is).2 = c → (cascadeRun ns c is).1 = ns := by
  induction is generalizing ns c with
  | nil => intro _; rfl
  | cons i rest ih =>
    rw [cascadeRun]
    intro h
    have hfalse : (cascadeStep ns i).2 = false := by
      cases hb : (cascadeStep ns i).2
      · rfl
      · exfalso
        have hle := cascadeRun_count_le rest (cascadeStep ns i).1
          (c + (if (cascadeStep ns i).2 then 1 else 0))
        rw [hb] at hle h
        simp at hle h
        omega
    have h1 : (cascadeStep ns i).1 = ns := cascadeStep_snd_false ns i hfalse
    rw [hfalse] at h
    rw [hfalse, h1]
    rw [h1] at h
    simp at h ⊢
    exact ih ns c h

theorem cascadeRun_append (xs ys : List Nat) (ns : List Node) (c : Nat) :
    cascadeRun ns c (xs ++ ys) =
      cascadeRun (cascadeRun ns c xs).1 (cascadeRun ns c xs).2 ys := by
  induction xs generalizing ns c with
  | nil => rfl
  | cons i rest ih =>
    rw [List.cons_append, cascadeRun, cascadeRun]
    exact ih _ _

theorem forallR_refl (ns : List Node) :
    List.Forall₂ (fun a b : Node => a.output = b.output ∧ a.op_type = b.op_type) ns ns := by
  induction ns with
  | nil => exact List.Forall₂.nil
  | cons a t ih => exact List.Forall₂.cons ⟨rfl, rfl⟩ ih

theorem forallR_trans (l1 l2 l3 : List Node)
    (h1 : List.Forall₂ (fun a b : Node => a.output = b.output ∧ a.op_type = b.op_type) l1 l2)
    (h2 : List.Forall₂ (fun a b : Node => a.output = b.output ∧ a.op_type = b.op_type) l2 l3) :
    List.Forall₂ (fun a b : Node => a.output = b.output ∧ a.op_type = b.op_type) l1 l3 := by
  induction h1 generalizing l3 with
  | nil =>
    cases h2
    exact List.Forall₂.nil
  | cons hab h ih =>
    cases h2 with
    | cons hbc h2' =>
      exact List.Forall₂.cons ⟨hab.1.trans hbc.1, hab.2.trans hbc.2⟩ (ih _ h2')

theorem forallR_set (ns : List Node) (i : Nat) (x : Node)
    (h : ∀ a, ns.get? i = Option.some a → a.output = x.output ∧ a.op_type = x.op_type) :
    List.Forall₂ (fun a b : Node => a.output = b.output ∧ a.op_type = b.op_type) ns (ns.set i x) := by
  induction ns generalizing i with
  | nil => exact List.Forall₂.nil
  | cons a t ih =>
    cases i with
    | zero => exact List.Forall₂.cons (h a rfl) (forallR_refl t)
    | succ j => exact List.Forall₂.cons ⟨rfl, rfl⟩ (ih j (fun b hb => h b hb))

theorem forallR_cascadeStep (ns : List Node) (i : Nat) :
    List.Forall₂ (fun a b : Node => a.output = b.output ∧ a.op_type = b.op_type)
      ns (cascadeStep ns i).1 := by
  unfold cascadeStep
  cases hg : ns.get? i with
  | none => exact forallR_refl ns
  | some n =>
    by_cases hc : (n.op_type == "Cast") = true
    · simp only [hc, if_true]
      cases hp : getParentIn ns n 0 with
      | none => exact forallR_refl ns
      | some p =>
        by_cases hpc : (p.op_type == "Cast") = true
        · simp only [hpc, if_true]
          refine forallR_set ns i _ ?_
          intro a ha
          rw [hg] at ha
          cases ha
          exact ⟨rfl, rfl⟩
        · simp only [hpc, if_false]
          exact forallR_refl ns
    · simp only [hc, if_false]
      exact forallR_refl ns

theorem forallR_cascadeRun (is : List Nat) (ns : List Node) (c : Nat) :
    List.Forall₂ (fun a b : Node => a.output = b.output ∧ a.op_type = b.op_type)
      ns (cascadeRun ns c is).1 := by
  induction is generalizing ns c with
  | nil => exact forallR_refl ns
  | cons i rest ih =>
    rw [cascadeRun]
    exact forallR_trans _ _ _ (forallR_cascadeStep ns i) (ih _ _)

theorem getProducerOf_transport (s : String) (ns cur : List Node) (p : Node)
    (h : List.Forall₂ (fun a b : Node => a.output = b.output ∧ a.op_type = b.op_type) ns cur)
    (hf : getProducerOf ns s = Option.some p) :
    ∃ q, getProducerOf cur s = Option.some q ∧
      q.output = p.output ∧ q.op_type = p.op_type := by
  induction h with
  | nil => simp [getProducerOf] at hf
  | @cons a b l1 l2 hab hrest ih =>
    unfold getProducerOf at hf ⊢
    by_cases hm : (a.output.contains s) = true
    · rw [List.find?_cons_of_pos (p := fun x : Node => x.output.contains s) l1 hm] at hf
      injection hf with hf
      subst hf
      refine ⟨b, ?_, hab.1.symm, hab.2.symm⟩
      rw [List.find?_cons_of_pos (p := fun x : Node => x.output.contains s) l2
        (by show b.output.contains s = true; rw [← hab.1]; exact hm)]
    · rw [List.find?_cons_of_neg (p := fun x : Node => x.output.contains s) l1 hm] at hf
      obtain ⟨q, hq, hq1, hq2⟩ := ih hf
      refine ⟨q, ?_, hq1, hq2⟩
      rw [List.find?_cons_of_neg (p := fun x : Node => x.output.contains s) l2
        (by show ¬ b.output.contains s = true; rw [← hab.1]; exact hm)]
      exact hq

/-- C7: in one run of `remove_cascaded_cast_nodes`, every Cast node whose input-0 producer was a Cast node in the pre-pass graph has its input 0 rewritten to that producer's input 0 as read when the node is visited (the producer node is the one with the same outputs in the already-swept prefix state), the rewrite counter is positive so graph pruning is invoked on the swept node list, and on a graph with no cascade the counter stays zero and the pass leaves the model untouched without pruning. -/
theorem claim_C7_cascaded (m : Model) (i : Nat) (n p : Node)
    (hn : m.nodes.get? i = Option.some n)
    (hcast : n.op_type = "Cast")
    (hp : getParentIn m.nodes n 0 = Option.some p)
    (hpc : p.op_type = "Cast") :
    ((getParentIn (cascadeRun m.nodes 0 (List.range i)).1 n 0).map (fun q => q.output)
        = Option.some p.output) ∧
    ((getParentIn (cascadeRun m.nodes 0 (List.range i)).1 n 0).map (fun q => q.op_type)
        = Option.some "Cast") ∧
    ((cascadeSweep m.nodes).1.get? i =
      (getParentIn (cascadeRun m.nodes 0 (List.range i)).1 n 0).map
        (fun q => setInput0 n (q.input.headD ""))) ∧
    0 < (cascadeSweep m.nodes).2 ∧
    remove_cascaded_cast_nodes m = pruneGraph { m with nodes := (cascadeSweep m.nodes).1 } ∧
    remove_cascaded_cast_nodes modelNoCascade = modelNoCascade ∧
    (cascadeSweep modelNoCascade.nodes).2 = 0 := by
  have hi : i < m.nodes.length := by
    by_contra hge
    rw [List.get?_eq_none.mpr (by omega)] at hn
    cases hn
  obtain ⟨s0, hs0, hprod⟩ :
      ∃ s0, n.input.get? 0 = Option.some s0 ∧ getProducerOf m.nodes s0 = Option.some p := by
    unfold getParentIn at hp
    cases he : n.input.get? 0 with
    | none => rw [he] at hp; cases hp
    | some s0 => rw [he] at hp; exact ⟨s0, rfl, hp⟩
  have hpre_get : (cascadeRun m.nodes 0 (List.range i)).1.get? i = Option.some n := by
    rw [cascadeRun_get_not_mem (List.range i) m.nodes 0 i
      (fun k hk => Nat.ne_of_lt (List.mem_range.mp hk))]
    exact hn
  have hF := forallR_cascadeRun (List.range i) m.nodes 0
  obtain ⟨q, hq, hqo, hqt⟩ := getProducerOf_transport s0 m.nodes
    (cascadeRun m.nodes 0 (List.range i)).1 p hF hprod
  have hparpre : getParentIn (cascadeRun m.nodes 0 (List.range i)).1 n 0 = Option.some q := by
    unfold getParentIn
    rw [hs0]
    exact hq
  have hqc : q.op_type = "Cast" := by rw [hqt, hpc]
  obtain ⟨k, hk⟩ : ∃ k, m.nodes.length - i = k + 1 := ⟨m.nodes.length - i - 1, by omega⟩
  have hrange : List.range m.nodes.length =
      List.range i ++ i :: List.range' (i + 1) k := by
    have hdecomp : List.range m.nodes.length =
        List.range i ++ List.range' i (m.nodes.length - i) := by
      rw [List.range_eq_range', List.range_eq_range']
      have e := List.range'_append 0 i (m.nodes.length - i) 1
      simp only [Nat.zero_add, Nat.one_mul] at e
      rw [e]
      congr 1
      omega
    rw [hdecomp, hk]
    rfl
  have hsweep : cascadeSweep m.nodes =
      cascadeRun ((cascadeRun m.nodes 0 (List.range i)).1.set i (setInput0 n (q.input.headD "")))
        ((cascadeRun m.nodes 0 (List.range i)).2 + 1)
        (List.range' (i + 1) k) := by
    unfold cascadeSweep
    rw [hrange, cascadeRun_append, cascadeRun,
      cascadeStep_of_rewrite (cascadeRun m.nodes 0 (List.range i)).1 i n q
        hpre_get hcast hparpre hqc]
    rfl
  have hgetfin : (cascadeSweep m.nodes).1.get? i
      = Option.some (setInput0 n (q.input.headD "")) := by
    rw [hsweep]
    rw [cascadeRun_get_not_mem (List.range' (i + 1) k) _ _ i
      (fun j hj => by have hm2 := List.mem_range'_1.mp hj; omega)]
    have hlen2 : i < (cascadeRun m.nodes 0 (List.range i)).1.length := by
      rw [cascadeRun_length]
      exact hi
    simp [List.getElem?_set_self hlen2]
  have hcount : 0 < (cascadeSweep m.nodes).2 := by
    rw [hsweep]
    have hmon := cascadeRun_count_le (List.range' (i + 1) k)
      ((cascadeRun m.nodes 0 (List.range i)).1.set i (setInput0 n (q.input.headD "")))
      ((cascadeRun m.nodes 0 (List.range i)).2 + 1)
    omega
  refine ⟨?_, ?_, ?_, hcount, ?_, ?_, ?_⟩
  · rw [hparpre]
    simp [hqo]
  · rw [hparpre]
    simp [hqt, hpc]
  · rw [hgetfin, hparpre]
    rfl
  · simp only [remove_cascaded_cast_nodes]
    rw [if_pos hcount]
  · rfl
  · rfl

theorem claim_C7_cascaded_witness :
    ((getParentIn (cascadeRun modelCascade.nodes 0 (List.range 1)).1 castNode2 0).map
        (fun q => q.output) = Option.some castNode1.output) ∧
    ((getParentIn (cascadeRun modelCascade.nodes 0 (List.range 1)).1 castNode2 0).map
        (fun q => q.op_type) = Option.some "Cast") ∧
    ((cascadeSweep modelCascade.nodes).1.get? 1 =
      (getParentIn (cascadeRun modelCascade.nodes 0 (List.range 1)).1 castNode2 0).map
        (fun q => setInput0 castNode2 (q.input.headD ""))) ∧
    0 < (cascadeSweep modelCascade.nodes).2 ∧
    remove_cascaded_cast_nodes modelCascade =
      pruneGraph { modelCascade with nodes := (cascadeSweep modelCascade.nodes).1 } ∧
    remove_cascaded_cast_nodes modelNoCascade = modelNoCascade ∧
    (cascadeSweep modelNoCascade.nodes).2 = 0 :=
  claim_C7_cascaded modelCascade 1 castNode2 castNode1 rfl rfl rfl rfl
